import Mathlib

/-!
# Query validation (`check.c`)

A shallow embedding of the semantic checks of `check.c`: lookup of a column in a
table definition, conversion of a textual value to the type of its column, and
the per-query checks built from them.

Conventions of the embedding.

* A C string is the `String` of the characters that stand before its
  terminating NUL; `strcmp(a, b) == 0` is equality of these strings and
  `*p == 0` says that nothing is left at `p`.
* An array with its count (`fields` / `fields_count`, `definitions` /
  `fields_count`) is a `List`; the count is its length.
* A function that writes through a pointer returns the new contents of the
  pointee next to its C result.
* Text written with `printf` is not part of the model.
-/

namespace Check

/-! ## Data model (`table.h`, `sql.h`) -/

/-- Modelled from the spec: the enumeration `field_type_t` is declared in `table.h`,
which is not part of the sources; its members are the column types the spec lists and
the constants `check.c` uses. -/
inductive field_type_t where
  | TYPE_UNKNOWN
  | TYPE_PRIMARY_KEY
  | TYPE_INTEGER
  | TYPE_FLOAT
  | TYPE_TEXT
deriving DecidableEq, Repr

/-- Modelled from the spec: the member `field_value` of `field_record_t` (`table.h`, not part
of the sources) holds one of the four members that `check.c` reads and writes. A `double` is
kept as its 64-bit pattern. -/
inductive field_value_t where
  | text_value (s : String)
  | int_value (v : Int)
  | float_value (bits : Nat)
  | primary_key_value (v : Nat)
deriving DecidableEq, Repr

/-- Modelled from the spec: `field_record_t` of `table.h` (not part of the sources), a column
name, a type tag and a value. -/
structure field_record_t where
  column_name : String
  field_type : field_type_t
  field_value : field_value_t
deriving DecidableEq, Repr

/-- Modelled from the spec: `table_record_t` of `table.h` (not part of the sources), the
records `fields[0 .. fields_count - 1]`. -/
structure table_record_t where
  fields : List field_record_t
deriving DecidableEq, Repr

/-- The count of a record list. -/
def table_record_t.fields_count (l : table_record_t) : Nat := l.fields.length

/-- Modelled from the spec: `field_definition_t` of `table.h` (not part of the sources), the name
and the type of one column. -/
structure field_definition_t where
  column_name : String
  column_type : field_type_t
deriving DecidableEq, Repr

/-- Modelled from the spec: `table_definition_t` of `table.h` (not part of the sources), the
column definitions `definitions[0 .. fields_count - 1]`. -/
structure table_definition_t where
  definitions : List field_definition_t
deriving DecidableEq, Repr

/-- The count of a table definition. -/
def table_definition_t.fields_count (t : table_definition_t) : Nat := t.definitions.length

/-- Modelled from the spec: the enumeration of the connectives of a WHERE clause (`sql.h`, not
part of the sources); `check.c` only tests it against `OP_ERROR`. -/
inductive operator_t where
  | OP_OR
  | OP_AND
  | OP_ERROR
deriving DecidableEq, Repr

/-- Modelled from the spec: `filter_t` of `sql.h` (not part of the sources), the conditions of a
WHERE clause and their connective. -/
structure filter_t where
  values : table_record_t
  logic_operator : operator_t
deriving DecidableEq, Repr

/-- Modelled from the spec: `update_or_select_query_t` of `sql.h` (not part of the sources). -/
structure update_or_select_query_t where
  table_name : String
  set_clause : table_record_t
  where_clause : filter_t
deriving DecidableEq, Repr

/-- Modelled from the spec: `create_query_t` of `sql.h` (not part of the sources). -/
structure create_query_t where
  table_name : String
  table_definition : table_definition_t
deriving DecidableEq, Repr

/-- Modelled from the spec: `insert_query_t` of `sql.h` (not part of the sources). -/
structure insert_query_t where
  table_name : String
  fields_names : table_record_t
  fields_values : table_record_t
deriving DecidableEq, Repr

/-- Modelled from the spec: `delete_query_t` of `sql.h` (not part of the sources). -/
structure delete_query_t where
  table_name : String
  where_clause : filter_t
deriving DecidableEq, Repr

/-! ## What `check.c` calls and does not define -/

/-- The collaborators of `check.c`: the catalog (`table.h`), the file system and the parts of the
platform that the C text leaves open.

* `table_exists name` is the result of `table_exists(name)`.
* `get_table_definition name` is what `get_table_definition(name, &table_definition)` leaves in
  `table_definition` (its returned pointer is never looked at).
* `directory_exists` and `getcwd` are the probes of `check_query_drop_db`.
* `strtod text` is the `double` (as its bit pattern) and the unconverted rest of the text.
* `union_text v` is the text read through `field_value.text_value` when the member written last
  is not `text_value`. -/
structure env_t where
  table_exists : String → Bool
  get_table_definition : String → table_definition_t
  directory_exists : String → Bool
  getcwd : String
  strtod : String → Nat × String
  union_text : field_value_t → String

/-- The text read through `field_value.text_value`. -/
def text_value (env : env_t) : field_value_t → String
  | .text_value s => s
  | v => env.union_text v

/-! ## The integer parsers of the C library -/

/-- The `isspace` of the C locale. -/
def isspace (c : Char) : Bool :=
  c == ' ' || c == '\t' || c == '\n' || c == '\x0b' || c == '\x0c' || c == '\r'

/-- Reads decimal digits in front of a text: their value added to `10^k * acc`, and the rest. -/
def scan_digits (acc : Nat) : List Char → Nat × List Char
  | [] => (acc, [])
  | c :: cs =>
    if c.isDigit then scan_digits (acc * 10 + (c.toNat - '0'.toNat)) cs else (acc, c :: cs)

/-- The subject sequence of `strtoll` / `strtoull` in base 10: white space, an optional sign,
then at least one digit. Gives the sign, the magnitude and the rest, or `none` when the text
does not start with such a sequence. -/
def subject_sequence (s : List Char) : Option (Bool × Nat × List Char) :=
  let s1 := s.dropWhile isspace
  let signed : Bool × List Char :=
    match s1 with
    | '-' :: t => (true, t)
    | '+' :: t => (false, t)
    | _ => (false, s1)
  match signed.2 with
  | [] => none
  | c :: _ =>
    if c.isDigit then
      let r := scan_digits 0 signed.2
      some (signed.1, r.1, r.2)
    else none

/-- The value `LLONG_MAX`. -/
def LLONG_MAX : Int := 2 ^ 63 - 1

/-- The value `LLONG_MIN`. -/
def LLONG_MIN : Int := -(2 ^ 63)

/-- The value `ULLONG_MAX`. -/
def ULLONG_MAX : Nat := 2 ^ 64 - 1

/-- The call `strtoll(nptr, &eptr, 10)`: the result and the text at `eptr`. Without a
subject sequence the result is 0 and `eptr` is `nptr`; a value out of range is replaced by
`LLONG_MIN` or `LLONG_MAX`. -/
def strtoll (nptr : String) : Int × String :=
  match subject_sequence nptr.data with
  | none => (0, nptr)
  | some (neg, v, rest) =>
    let x : Int := if neg then -(v : Int) else (v : Int)
    (if x < LLONG_MIN then LLONG_MIN else if LLONG_MAX < x then LLONG_MAX else x, String.mk rest)

/-- The call `strtoull(nptr, &eptr, 10)`: the result and the text at `eptr`. A magnitude out
of range gives `ULLONG_MAX`; with a minus sign the magnitude is negated in the unsigned
type. -/
def strtoull (nptr : String) : Nat × String :=
  match subject_sequence nptr.data with
  | none => (0, nptr)
  | some (neg, v, rest) =>
    (if ULLONG_MAX < v then ULLONG_MAX else if neg then (2 ^ 64 - v) % 2 ^ 64 else v,
      String.mk rest)

/-! ## `check.c`: literals -/

/-- The function `is_int`: the whole text is converted by `strtoll`. -/
def is_int (value : String) : Bool :=
  (strtoll value).2.isEmpty

/-- The function `is_float`: the whole text is converted by `strtod`. -/
def is_float (env : env_t) (value : String) : Bool :=
  (env.strtod value).2.isEmpty

/-- The function `is_key`: the whole text is converted by `strtoull`. -/
def is_key (value : String) : Bool :=
  (strtoull value).2.isEmpty

/-! ## `check.c`: columns and values -/

/-- The comparison of `find_field_definition`: equal lengths, and no index below both lengths
at which the characters differ. -/
def same_name (field_name column_name : String) : Bool :=
  if field_name.length = column_name.length then
    (List.range (min field_name.length column_name.length)).foldl
      (fun exist_temp j =>
        if field_name.data.get? j ≠ column_name.data.get? j then false else exist_temp)
      true
  else false

/-- The loop of `find_field_definition` over the definitions not yet visited. -/
def find_in_definitions (field_name : String) : List field_definition_t → Option field_definition_t
  | [] => none
  | d :: ds => if same_name field_name d.column_name then some d else find_in_definitions field_name ds

/-- The function `find_field_definition`: the first definition with the name, `none` for NULL. -/
def find_field_definition (field_name : String) (table_definition : table_definition_t) :
    Option field_definition_t :=
  find_in_definitions field_name table_definition.definitions

/-- The function `is_value_valid`: the result and the record afterwards. -/
def is_value_valid (env : env_t) (value : field_record_t) (field_definition : field_definition_t) :
    Bool × field_record_t :=
  if value.column_name = field_definition.column_name then
    match field_definition.column_type with
    | .TYPE_INTEGER =>
      if is_int (text_value env value.field_value) then
        (true, { value with
          field_type := .TYPE_INTEGER
          field_value := .int_value (strtoll (text_value env value.field_value)).1 })
      else (false, value)
    | .TYPE_FLOAT =>
      if is_float env (text_value env value.field_value) then
        (true, { value with
          field_type := .TYPE_FLOAT
          field_value := .float_value (env.strtod (text_value env value.field_value)).1 })
      else (false, value)
    | .TYPE_PRIMARY_KEY =>
      if is_key (text_value env value.field_value) then
        (true, { value with
          field_type := .TYPE_PRIMARY_KEY
          field_value := .primary_key_value (strtoull (text_value env value.field_value)).1 })
      else (false, value)
    | .TYPE_TEXT => (true, { value with field_type := .TYPE_TEXT })
    | .TYPE_UNKNOWN => (false, { value with field_type := .TYPE_UNKNOWN })
  else (false, value)

/-- The loop of `check_fields_list` over the records not yet visited. -/
def check_fields_loop (table_definition : table_definition_t) :
    List field_record_t → Bool → Bool
  | [], response => response
  | f :: fs, response =>
    if (find_field_definition f.column_name table_definition).isSome then
      check_fields_loop table_definition fs true
    else check_fields_loop table_definition fs response

/-- The function `check_fields_list`. -/
def check_fields_list (fields_list : table_record_t) (table_definition : table_definition_t) :
    Bool :=
  check_fields_loop table_definition fields_list.fields false

/-- The loop of `check_value_types` over the records not yet visited: the final `response` and
the records afterwards. -/
def check_value_loop (env : env_t) (table_definition : table_definition_t) :
    List field_record_t → Bool → Bool × List field_record_t
  | [], response => (response, [])
  | f :: fs, response =>
    match find_field_definition f.column_name table_definition with
    | none =>
      let r := check_value_loop env table_definition fs false
      (r.1, f :: r.2)
    | some field_definition =>
      let v := is_value_valid env f field_definition
      let r := check_value_loop env table_definition fs (if !v.1 then false else response)
      (r.1, v.2 :: r.2)

/-- The function `check_value_types`: the result and the record list afterwards. -/
def check_value_types (env : env_t) (fields_list : table_record_t)
    (table_definition : table_definition_t) : Bool × table_record_t :=
  let r := check_value_loop env table_definition fields_list.fields true
  (r.1, { fields := r.2 })

/-! ## `check.c`: queries -/

/-- The function `check_query_select`: the result and the query afterwards. -/
def check_query_select (env : env_t) (query : update_or_select_query_t) :
    Bool × update_or_select_query_t :=
  let table_definition := env.get_table_definition query.table_name
  if env.table_exists query.table_name then
    if (query.set_clause.fields_count = 1 ∧
          (query.set_clause.fields.head?.map fun f => f.column_name) = some "*") ∨
        check_fields_list query.set_clause table_definition = true then
      if query.where_clause.values.fields_count = 0 then (true, query)
      else if query.where_clause.logic_operator ≠ operator_t.OP_ERROR then
        if check_fields_list query.where_clause.values table_definition then
          let r := check_value_types env query.where_clause.values table_definition
          (r.1, { query with where_clause := { query.where_clause with values := r.2 } })
        else (false, query)
      else (false, query)
    else (false, query)
  else (false, query)

/-- The function `check_query_update`: the result and the query afterwards. -/
def check_query_update (env : env_t) (query : update_or_select_query_t) :
    Bool × update_or_select_query_t :=
  let table_definition := env.get_table_definition query.table_name
  if env.table_exists query.table_name then
    if check_fields_list query.set_clause table_definition then
      let s := check_value_types env query.set_clause table_definition
      let query1 := { query with set_clause := s.2 }
      if s.1 then
        if query1.where_clause.values.fields_count = 0 then (true, query1)
        else if query1.where_clause.logic_operator ≠ operator_t.OP_ERROR then
          if check_fields_list query1.where_clause.values table_definition then
            let r := check_value_types env query1.where_clause.values table_definition
            (r.1, { query1 with where_clause := { query1.where_clause with values := r.2 } })
          else (false, query1)
        else (false, query1)
      else (false, query1)
    else (false, query)
  else (false, query)

/-- The function `check_query_create`. -/
def check_query_create (env : env_t) (query : create_query_t) : Bool :=
  if !env.table_exists query.table_name then true else false

/-- The copy loop of `check_query_insert`: the text of the i-th value becomes the text of the
i-th name record. -/
def join_fields_values (env : env_t) (names values : List field_record_t) :
    List field_record_t :=
  List.zipWith
    (fun n v => { n with field_value := field_value_t.text_value (text_value env v.field_value) })
    names values

/-- The function `check_query_insert`: the result and the query afterwards. -/
def check_query_insert (env : env_t) (query : insert_query_t) : Bool × insert_query_t :=
  let table_definition := env.get_table_definition query.table_name
  if env.table_exists query.table_name then
    if check_fields_list query.fields_names table_definition then
      if query.fields_names.fields_count = query.fields_values.fields_count then
        let joined : table_record_t :=
          { fields := join_fields_values env query.fields_names.fields query.fields_values.fields }
        let r := check_value_types env joined table_definition
        (r.1, { query with fields_names := r.2 })
      else (false, query)
    else (false, query)
  else (false, query)

/-- The function `check_query_delete`: the result and the query afterwards. -/
def check_query_delete (env : env_t) (query : delete_query_t) : Bool × delete_query_t :=
  let table_definition := env.get_table_definition query.table_name
  if env.table_exists query.table_name then
    if query.where_clause.values.fields_count = 0 then (true, query)
    else if query.where_clause.logic_operator ≠ operator_t.OP_ERROR then
      if check_fields_list query.where_clause.values table_definition then
        let r := check_value_types env query.where_clause.values table_definition
        (r.1, { query with where_clause := { query.where_clause with values := r.2 } })
      else (false, query)
    else (false, query)
  else (false, query)

/-- The function `check_query_drop_table`. -/
def check_query_drop_table (env : env_t) (table_name : String) : Bool :=
  if env.table_exists table_name then true else false

/-- The call `strstr(haystack, needle)`: the text from the first place at which `needle` stands
in `haystack`, `none` for NULL. -/
def strstr : List Char → List Char → Option (List Char)
  | [], needle => if needle.isPrefixOf [] then some [] else none
  | c :: cs, needle => if needle.isPrefixOf (c :: cs) then some (c :: cs) else strstr cs needle

/-- The function `check_query_drop_db`, with `env.getcwd` the current working directory of the
process. The result is `none` where the C text has no defined result: `getcwd` gives NULL for
a directory that does not fit the 300 bytes of `buffer` with its terminator, and
`chemin + strlen(chemin) - 4` lies before `buffer` for a directory of fewer than 4
characters. -/
def check_query_drop_db (env : env_t) (db_name : String) : Option Bool :=
  let chemin := env.getcwd
  if 300 ≤ chemin.length then none
  else if chemin.length < 4 then none
  else
    match strstr (chemin.data.drop (chemin.length - 4)) "/db".data with
    | none => if env.directory_exists db_name then some true else some false
    | some parent =>
      if parent ≠ "/db".data then
        if env.directory_exists db_name then some true else some false
      else some true

/-! ## Statements of the specification -/

/-- The acceptance rule of a column type for a raw text, with the literal tests of `check.c`:
Integer, Float and PrimaryKey texts must be consumed whole by their parser, Text takes every
text, Unknown takes none. -/
def type_accepts (env : env_t) : field_type_t → String → Bool
  | .TYPE_INTEGER, text => is_int text
  | .TYPE_FLOAT, text => is_float env text
  | .TYPE_PRIMARY_KEY, text => is_key text
  | .TYPE_TEXT, _ => true
  | .TYPE_UNKNOWN, _ => false

/-- The typed value that a column type produces from an accepted raw text. -/
def coerced_value (env : env_t) : field_type_t → String → field_value_t
  | .TYPE_INTEGER, text => .int_value (strtoll text).1
  | .TYPE_FLOAT, text => .float_value (env.strtod text).1
  | .TYPE_PRIMARY_KEY, text => .primary_key_value (strtoull text).1
  | _, text => .text_value text

/-- The WHERE handling as the specification words it: an empty condition list passes; otherwise
the connective must not be the sentinel, the condition fields must pass `check_fields_list` and
the conditions must pass `check_value_types`. -/
def where_clause_valid (env : env_t) (where_clause : filter_t)
    (table_definition : table_definition_t) : Bool :=
  decide (where_clause.values.fields = []) ||
    (decide (where_clause.logic_operator ≠ operator_t.OP_ERROR) &&
      check_fields_list where_clause.values table_definition &&
      (check_value_types env where_clause.values table_definition).1)

/-- The number that a text of decimal digits denotes. -/
def decimal_value (digits : List Char) : Nat :=
  Nat.ofDigits 10 (digits.reverse.map fun c => c.toNat - '0'.toNat)

/-- The written form of a base-10 literal with nothing after it: white space, then an optional
sign, then one or more decimal digits. `neg` tells whether the sign is a minus. -/
def literal_form (s : List Char) (neg : Bool) (digits : List Char) : Prop :=
  ∃ ws sign : List Char, s = ws ++ sign ++ digits ∧
    (∀ c ∈ ws, isspace c = true) ∧
    ((sign = [] ∧ neg = false) ∨ (sign = ['+'] ∧ neg = false) ∨ (sign = ['-'] ∧ neg = true)) ∧
    digits ≠ [] ∧ ∀ c ∈ digits, c.isDigit = true

/-- A text is a base-10 literal of the integer `z`. -/
def denotes (s : List Char) (z : Int) : Prop :=
  ∃ (neg : Bool) (digits : List Char), literal_form s neg digits ∧
    z = if neg then -(decimal_value digits : Int) else (decimal_value digits : Int)

/-- The nearest integer of the signed 64-bit range. -/
def nearest_int64 (z : Int) : Int :=
  if z < -(2 ^ 63) then -(2 ^ 63) else if 2 ^ 63 - 1 < z then 2 ^ 63 - 1 else z

/-! ## A catalog with one table, for the examples -/

/-- The schema `{id: PrimaryKey, name: Text, age: Integer}`. -/
def people : table_definition_t :=
  { definitions :=
      [⟨"id", .TYPE_PRIMARY_KEY⟩, ⟨"name", .TYPE_TEXT⟩, ⟨"age", .TYPE_INTEGER⟩] }

/-- A catalog whose only table is `people`; no directory exists and `strtod` converts no
character. -/
def people_env : env_t where
  table_exists := fun name => name == "people"
  get_table_definition := fun _ => people
  directory_exists := fun _ => false
  getcwd := "/"
  strtod := fun text => (0, text)
  union_text := fun _ => ""

/-- A record as the parser leaves it: a column name and a raw text. -/
def raw (column_name text : String) : field_record_t :=
  { column_name := column_name, field_type := .TYPE_UNKNOWN, field_value := .text_value text }

/-! ## Lemmas on the loops -/

theorem same_name_loop_true (a b : List Char) (l : List Nat) :
    l.foldl (fun exist_temp j => if a.get? j ≠ b.get? j then false else exist_temp) true = true ↔
      ∀ j ∈ l, a.get? j = b.get? j := by
  induction l using List.reverseRecOn with
  | nil => simp
  | append_singleton l j ih =>
    rw [List.foldl_append]
    simp only [List.foldl_cons, List.foldl_nil, List.mem_append, List.mem_singleton]
    by_cases h : a.get? j = b.get? j
    · simp only [h, ne_eq, not_true_eq_false, if_false, ih]
      constructor
      · intro hl k hk
        rcases hk with hk | hk
        · exact hl k hk
        · subst hk; exact h
      · intro hl k hk
        exact hl k (Or.inl hk)
    · simp only [ne_eq, h, not_false_eq_true, if_true]
      constructor
      · intro hf; cases hf
      · intro hl; exact absurd (hl j (Or.inr rfl)) h

theorem same_name_iff (a b : String) : same_name a b = true ↔ a = b := by
  unfold same_name
  constructor
  · intro h
    split at h
    · rename_i hlen
      rw [same_name_loop_true] at h
      apply String.ext
      apply List.ext_get?
      intro j
      by_cases hj : j < a.length
      · apply h
        rw [List.mem_range, ← hlen, min_self]
        exact hj
      · have ha : a.data.length ≤ j := Nat.le_of_not_lt hj
        have hb : b.data.length ≤ j := by
          have : b.length ≤ j := hlen ▸ ha
          exact this
        rw [List.get?_eq_none.mpr ha, List.get?_eq_none.mpr hb]
    · cases h
  · intro h
    subst h
    rw [if_pos rfl, same_name_loop_true]
    intro j _
    rfl

theorem find_in_definitions_name (field_name : String) (ds : List field_definition_t)
    (d : field_definition_t) (h : find_in_definitions field_name ds = some d) :
    d ∈ ds ∧ d.column_name = field_name := by
  induction ds with
  | nil => simp [find_in_definitions] at h
  | cons e es ih =>
    unfold find_in_definitions at h
    split at h
    · rename_i hs
      cases h
      exact ⟨List.mem_cons_self _ _, ((same_name_iff _ _).mp hs).symm⟩
    · exact ⟨List.mem_cons_of_mem _ (ih h).1, (ih h).2⟩

theorem find_field_definition_name (field_name : String) (t : table_definition_t)
    (d : field_definition_t) (h : find_field_definition field_name t = some d) :
    d ∈ t.definitions ∧ d.column_name = field_name :=
  find_in_definitions_name field_name t.definitions d h

theorem find_in_definitions_isSome (field_name : String) (ds : List field_definition_t) :
    (find_in_definitions field_name ds).isSome = true ↔ ∃ d ∈ ds, d.column_name = field_name := by
  induction ds with
  | nil => simp [find_in_definitions]
  | cons e es ih =>
    unfold find_in_definitions
    by_cases hs : same_name field_name e.column_name = true
    · rw [if_pos hs]
      simp only [Option.isSome_some, List.mem_cons, true_iff]
      exact ⟨e, Or.inl rfl, ((same_name_iff _ _).mp hs).symm⟩
    · rw [if_neg hs, ih]
      have hne : ¬ e.column_name = field_name := fun h => hs ((same_name_iff _ _).mpr h.symm)
      constructor
      · rintro ⟨d, hd, hn⟩
        exact ⟨d, List.mem_cons_of_mem _ hd, hn⟩
      · rintro ⟨d, hd, hn⟩
        rcases List.mem_cons.mp hd with rfl | hd
        · exact absurd hn hne
        · exact ⟨d, hd, hn⟩

theorem check_fields_loop_eq (t : table_definition_t) (l : List field_record_t) (response : Bool) :
    check_fields_loop t l response =
      (response || l.any fun f => (find_field_definition f.column_name t).isSome) := by
  induction l generalizing response with
  | nil => simp [check_fields_loop]
  | cons f fs ih =>
    unfold check_fields_loop
    by_cases h : (find_field_definition f.column_name t).isSome = true
    · rw [if_pos h, ih]; simp [h]
    · rw [if_neg h, ih]; simp [h]

theorem check_value_loop_fst (env : env_t) (t : table_definition_t) (l : List field_record_t)
    (response : Bool) :
    (check_value_loop env t l response).1 =
      (response && l.all fun f =>
        match find_field_definition f.column_name t with
        | none => false
        | some d => (is_value_valid env f d).1) := by
  induction l generalizing response with
  | nil => simp [check_value_loop]
  | cons f fs ih =>
    unfold check_value_loop
    cases hfind : find_field_definition f.column_name t with
    | none => simp [ih, hfind]
    | some d =>
      simp only [ih, List.all_cons, hfind]
      cases (is_value_valid env f d).1 <;> simp

theorem check_value_loop_snd (env : env_t) (t : table_definition_t) (l : List field_record_t)
    (response : Bool) :
    (check_value_loop env t l response).2 =
      l.map fun f =>
        match find_field_definition f.column_name t with
        | none => f
        | some d => (is_value_valid env f d).2 := by
  induction l generalizing response with
  | nil => simp [check_value_loop]
  | cons f fs ih =>
    unfold check_value_loop
    cases hfind : find_field_definition f.column_name t with
    | none => simp [ih, hfind]
    | some d => simp [ih, hfind]

theorem check_fields_list_iff (L : table_record_t) (S : table_definition_t) :
    check_fields_list L S = true ↔
      ∃ f ∈ L.fields, (find_field_definition f.column_name S).isSome = true := by
  unfold check_fields_list
  rw [check_fields_loop_eq]
  simp

theorem check_value_types_fst (env : env_t) (L : table_record_t) (S : table_definition_t) :
    (check_value_types env L S).1 = true ↔
      ∀ f ∈ L.fields, ∃ d, find_field_definition f.column_name S = some d ∧
        (is_value_valid env f d).1 = true := by
  unfold check_value_types
  simp only [check_value_loop_fst, Bool.true_and, List.all_eq_true]
  constructor
  · intro h f hf
    have hf1 := h f hf
    cases hfind : find_field_definition f.column_name S with
    | none => rw [hfind] at hf1; cases hf1
    | some d => rw [hfind] at hf1; exact ⟨d, rfl, hf1⟩
  · intro h f hf
    obtain ⟨d, hd, hv⟩ := h f hf
    rw [hd]
    exact hv

theorem is_value_valid_text (env : env_t) (n : String) (ty : field_type_t) (s : String)
    (d : field_definition_t) (hname : n = d.column_name)
    (hacc : type_accepts env d.column_type s = true) :
    is_value_valid env ⟨n, ty, .text_value s⟩ d =
      (true, ⟨n, d.column_type, coerced_value env d.column_type s⟩) := by
  obtain ⟨dn, dt⟩ := d
  simp only at hname hacc
  subst hname
  cases dt <;> simp_all [is_value_valid, type_accepts, coerced_value, text_value]

theorem is_value_valid_text_fst (env : env_t) (n : String) (ty : field_type_t) (s : String)
    (d : field_definition_t) (hname : n = d.column_name) :
    (is_value_valid env ⟨n, ty, .text_value s⟩ d).1 = type_accepts env d.column_type s := by
  obtain ⟨dn, dt⟩ := d
  simp only at hname
  subst hname
  cases dt <;> simp [is_value_valid, type_accepts, text_value] <;> split <;> simp_all

theorem join_fields_values_getElem? (env : env_t) (names values : List field_record_t) (i : Nat)
    (n v : field_record_t) (hn : names[i]? = some n) (hv : values[i]? = some v) :
    (join_fields_values env names values)[i]? =
      some ⟨n.column_name, n.field_type, .text_value (text_value env v.field_value)⟩ := by
  unfold join_fields_values
  rw [List.getElem?_zipWith_eq_some]
  exact ⟨n, v, hn, hv, rfl⟩

/-! ## Claims -/

/-- C1: for a table name for which `table_exists` is false, and for every payload, the checks
of Select, Update, Delete, Insert and DropTable return false, and the check of CreateTable for
the same name returns true. -/
theorem absent_table_rejected (env : env_t) (t : String) (h : env.table_exists t = false) :
    (∀ set_clause where_clause,
        (check_query_select env ⟨t, set_clause, where_clause⟩).1 = false) ∧
      (∀ set_clause where_clause,
        (check_query_update env ⟨t, set_clause, where_clause⟩).1 = false) ∧
      (∀ where_clause, (check_query_delete env ⟨t, where_clause⟩).1 = false) ∧
      (∀ fields_names fields_values,
        (check_query_insert env ⟨t, fields_names, fields_values⟩).1 = false) ∧
      check_query_drop_table env t = false ∧
      ∀ table_definition, check_query_create env ⟨t, table_definition⟩ = true := by
  refine ⟨?_, ?_, ?_, ?_, ?_, ?_⟩
  · intro set_clause where_clause
    simp [check_query_select, h]
  · intro set_clause where_clause
    simp [check_query_update, h]
  · intro where_clause
    simp [check_query_delete, h]
  · intro fields_names fields_values
    simp [check_query_insert, h]
  · simp [check_query_drop_table, h]
  · intro table_definition
    simp [check_query_create, h]

/-- Witness of C1: the name `ghost` in a catalog whose only table is `people`. -/
theorem absent_table_rejected_witness :
    people_env.table_exists "ghost" = false ∧
      (∀ set_clause where_clause,
        (check_query_select people_env ⟨"ghost", set_clause, where_clause⟩).1 = false) ∧
      (∀ set_clause where_clause,
        (check_query_update people_env ⟨"ghost", set_clause, where_clause⟩).1 = false) ∧
      (∀ where_clause, (check_query_delete people_env ⟨"ghost", where_clause⟩).1 = false) ∧
      (∀ fields_names fields_values,
        (check_query_insert people_env ⟨"ghost", fields_names, fields_values⟩).1 = false) ∧
      check_query_drop_table people_env "ghost" = false ∧
      ∀ table_definition, check_query_create people_env ⟨"ghost", table_definition⟩ = true :=
  ⟨by decide, absent_table_rejected people_env "ghost" (by decide)⟩

/-- C2: for every table name and every catalog, `check_query_create` is the negation of
`table_exists`, `check_query_drop_table` is `table_exists`, and exactly one of the two checks
validates. -/
theorem create_drop_complementary (env : env_t) (t : String) (table_definition : table_definition_t) :
    check_query_create env ⟨t, table_definition⟩ = !env.table_exists t ∧
      check_query_drop_table env t = env.table_exists t ∧
      ((check_query_create env ⟨t, table_definition⟩ = true ∧
          check_query_drop_table env t = false) ∨
        (check_query_create env ⟨t, table_definition⟩ = false ∧
          check_query_drop_table env t = true)) := by
  unfold check_query_create check_query_drop_table
  cases env.table_exists t <;> simp

/-- C5: an Insert whose count of names differs from its count of values is rejected, for every
catalog, schema, names and value texts. -/
theorem insert_count_mismatch (env : env_t) (query : insert_query_t)
    (h : query.fields_names.fields_count ≠ query.fields_values.fields_count) :
    (check_query_insert env query).1 = false := by
  unfold check_query_insert
  simp only [if_neg h]
  split
  · split <;> rfl
  · rfl

/-- Witness of C5: two names, both columns of the table, and three values. -/
theorem insert_count_mismatch_witness :
    (check_query_insert people_env
      ⟨"people", ⟨[raw "id" "", raw "name" ""]⟩,
        ⟨[raw "" "1", raw "" "Bob", raw "" "30"]⟩⟩).1 = false :=
  insert_count_mismatch people_env _ (by decide)

/-- C6: on an existing table, whatever its schema, a Select whose field list is the single
entry `*` validates when its WHERE condition list is empty, and in general its result is that
of the WHERE handling alone: `check_fields_list` on the field list plays no part. -/
theorem select_wildcard (env : env_t) (t : String) (f : field_record_t) (where_clause : filter_t)
    (hex : env.table_exists t = true) (hstar : f.column_name = "*") :
    (where_clause.values.fields = [] →
        (check_query_select env ⟨t, ⟨[f]⟩, where_clause⟩).1 = true) ∧
      (check_query_select env ⟨t, ⟨[f]⟩, where_clause⟩).1 =
        where_clause_valid env where_clause (env.get_table_definition t) := by
  have key : (check_query_select env ⟨t, ⟨[f]⟩, where_clause⟩).1 =
      where_clause_valid env where_clause (env.get_table_definition t) := by
    unfold check_query_select where_clause_valid
    simp only [hex, if_true, table_record_t.fields_count, List.length_singleton, List.head?_cons,
      Option.map_some', hstar, true_and, true_or]
    by_cases hw : where_clause.values.fields = []
    · simp [hw]
    · have hlen : ¬ where_clause.values.fields.length = 0 := by
        simpa [List.length_eq_zero] using hw
      simp only [hlen, if_false, hw, decide_False, Bool.false_or]
      by_cases hop : where_clause.logic_operator = operator_t.OP_ERROR
      · simp [hop]
      · simp only [ne_eq, hop, not_false_eq_true, if_true, decide_True, Bool.true_and]
        cases check_fields_list where_clause.values (env.get_table_definition t) <;> simp
  refine ⟨?_, key⟩
  intro hw
  rw [key]
  simp [where_clause_valid, hw]

/-- Witness of C6: the field list `*` on a table that has no column at all. -/
theorem select_wildcard_witness :
    (check_query_select { people_env with get_table_definition := fun _ => ⟨[]⟩ }
      ⟨"people", ⟨[raw "*" ""]⟩, ⟨⟨[]⟩, .OP_AND⟩⟩).1 = true :=
  (select_wildcard { people_env with get_table_definition := fun _ => ⟨[]⟩ }
    "people" (raw "*" "") ⟨⟨[]⟩, .OP_AND⟩ (by decide) (by decide)).1 rfl

/-- C8: `check_fields_list` returns true exactly when at least one entry of the list has a
column name that `find_field_definition` resolves; it returns false on the empty list and true
on every list that holds a resolving entry, whatever stands around it. -/
theorem check_fields_list_any (S : table_definition_t) :
    (∀ L : table_record_t, check_fields_list L S = true ↔
        ∃ f ∈ L.fields, (find_field_definition f.column_name S).isSome = true) ∧
      check_fields_list ⟨[]⟩ S = false ∧
      ∀ f : field_record_t, ∀ before after : List field_record_t,
        (find_field_definition f.column_name S).isSome = true →
          check_fields_list ⟨before ++ f :: after⟩ S = true := by
  refine ⟨fun L => check_fields_list_iff L S, rfl, ?_⟩
  intro f before after hf
  rw [check_fields_list_iff]
  exact ⟨f, by simp, hf⟩

/-- C9, the code at the failing input: a list with one column of the table and one name that is
no column of it passes `check_fields_list`, and a Select with that field list validates. -/
theorem check_fields_list_not_all :
    find_field_definition "salary" people = none ∧
      check_fields_list ⟨[raw "id" "", raw "salary" ""]⟩ people = true ∧
      (check_query_select people_env
        ⟨"people", ⟨[raw "id" "", raw "salary" ""]⟩, ⟨⟨[]⟩, .OP_AND⟩⟩).1 = true := by
  decide

/-- C10: `check_value_types` returns true exactly when every entry of the list resolves to a
column by name and `is_value_valid` succeeds for it against that column; the empty list gives
true. -/
theorem check_value_types_all (env : env_t) (S : table_definition_t) :
    (∀ L : table_record_t, (check_value_types env L S).1 = true ↔
        ∀ f ∈ L.fields, ∃ d, find_field_definition f.column_name S = some d ∧
          (is_value_valid env f d).1 = true) ∧
      (check_value_types env ⟨[]⟩ S).1 = true :=
  ⟨fun L => check_value_types_fst env L S, rfl⟩

/-- C3: on an existing table, an Insert with a non-empty list of names, as many values as
names, and at every index a name that resolves to a column whose type accepts the text of the
value at that index, validates; afterwards the name record at every index keeps its column
name and carries the type of that column and the typed value made from the text of the value
at the same index. -/
theorem insert_valid_typed (env : env_t) (query : insert_query_t)
    (hex : env.table_exists query.table_name = true)
    (hne : query.fields_names.fields ≠ [])
    (hlen : query.fields_names.fields_count = query.fields_values.fields_count)
    (hacc : ∀ (i : Nat) (n v : field_record_t), query.fields_names.fields[i]? = some n →
      query.fields_values.fields[i]? = some v →
      ∃ d, find_field_definition n.column_name (env.get_table_definition query.table_name) =
          some d ∧
        type_accepts env d.column_type (text_value env v.field_value) = true) :
    (check_query_insert env query).1 = true ∧
      (check_query_insert env query).2.fields_names.fields.length =
        query.fields_names.fields.length ∧
      ∀ (i : Nat) (n v : field_record_t) (d : field_definition_t),
        query.fields_names.fields[i]? = some n →
        query.fields_values.fields[i]? = some v →
        find_field_definition n.column_name (env.get_table_definition query.table_name) =
          some d →
        (check_query_insert env query).2.fields_names.fields[i]? =
          some ⟨n.column_name, d.column_type,
            coerced_value env d.column_type (text_value env v.field_value)⟩ := by
  obtain ⟨t, ⟨names⟩, ⟨values⟩⟩ := query
  simp only [table_record_t.fields_count] at hex hne hlen hacc ⊢
  have hcf : check_fields_list ⟨names⟩ (env.get_table_definition t) = true := by
    rw [check_fields_list_iff]
    cases names with
    | nil => exact absurd rfl hne
    | cons n0 ns =>
      cases values with
      | nil => simp at hlen
      | cons v0 vs =>
        obtain ⟨d, hd, _⟩ := hacc 0 n0 v0 (by simp) (by simp)
        exact ⟨n0, List.mem_cons_self _ _, by rw [hd]; rfl⟩
  have hrun : check_query_insert env ⟨t, ⟨names⟩, ⟨values⟩⟩ =
      ((check_value_types env ⟨join_fields_values env names values⟩
          (env.get_table_definition t)).1,
        ⟨t, (check_value_types env ⟨join_fields_values env names values⟩
          (env.get_table_definition t)).2, ⟨values⟩⟩) := by
    simp [check_query_insert, hex, hcf, hlen, table_record_t.fields_count]
  rw [hrun]
  refine ⟨?_, ?_, ?_⟩
  · rw [check_value_types_fst]
    intro f hf
    obtain ⟨i, hi⟩ := List.mem_iff_getElem?.mp hf
    obtain ⟨n, v, hn, hv, hfe⟩ := List.getElem?_zipWith_eq_some.mp hi
    obtain ⟨d, hd, ha⟩ := hacc i n v hn hv
    subst hfe
    refine ⟨d, hd, ?_⟩
    rw [is_value_valid_text env _ _ _ d (find_field_definition_name _ _ _ hd).2.symm ha]
  · simp [check_value_types, check_value_loop_snd, join_fields_values, hlen]
  · intro i n v d hn hv hd
    have ha' : type_accepts env d.column_type (text_value env v.field_value) = true := by
      obtain ⟨d', hd', ha'⟩ := hacc i n v hn hv
      rw [hd] at hd'
      cases hd'
      exact ha'
    simp only [check_value_types, check_value_loop_snd, List.getElem?_map,
      join_fields_values_getElem? env names values i n v hn hv, Option.map_some', hd]
    rw [is_value_valid_text env _ _ _ d (find_field_definition_name _ _ _ hd).2.symm ha']

/-- Witness of C3: schema `{id: PrimaryKey, name: Text, age: Integer}`, names `id, name, age`
and values `1`, `Bob`, `30` validate and give the key 1, the text `Bob` and the integer 30. -/
theorem insert_valid_typed_witness :
    (check_query_insert people_env
      ⟨"people", ⟨[raw "id" "", raw "name" "", raw "age" ""]⟩,
        ⟨[raw "" "1", raw "" "Bob", raw "" "30"]⟩⟩).1 = true ∧
      (check_query_insert people_env
        ⟨"people", ⟨[raw "id" "", raw "name" "", raw "age" ""]⟩,
          ⟨[raw "" "1", raw "" "Bob", raw "" "30"]⟩⟩).2.fields_names.fields[0]? =
        some ⟨"id", .TYPE_PRIMARY_KEY, .primary_key_value 1⟩ ∧
      (check_query_insert people_env
        ⟨"people", ⟨[raw "id" "", raw "name" "", raw "age" ""]⟩,
          ⟨[raw "" "1", raw "" "Bob", raw "" "30"]⟩⟩).2.fields_names.fields[1]? =
        some ⟨"name", .TYPE_TEXT, .text_value "Bob"⟩ ∧
      (check_query_insert people_env
        ⟨"people", ⟨[raw "id" "", raw "name" "", raw "age" ""]⟩,
          ⟨[raw "" "1", raw "" "Bob", raw "" "30"]⟩⟩).2.fields_names.fields[2]? =
        some ⟨"age", .TYPE_INTEGER, .int_value 30⟩ := by
  have h := insert_valid_typed people_env
    ⟨"people", ⟨[raw "id" "", raw "name" "", raw "age" ""]⟩,
      ⟨[raw "" "1", raw "" "Bob", raw "" "30"]⟩⟩ (by decide) (by decide) (by decide)
    (by
      intro i n v hn hv
      rcases i with _ | _ | _ | i
      · cases hn; cases hv; exact ⟨⟨"id", .TYPE_PRIMARY_KEY⟩, by decide, by decide⟩
      · cases hn; cases hv; exact ⟨⟨"name", .TYPE_TEXT⟩, by decide, by decide⟩
      · cases hn; cases hv; exact ⟨⟨"age", .TYPE_INTEGER⟩, by decide, by decide⟩
      · simp at hn)
  exact ⟨h.1,
    h.2.2 0 (raw "id" "") (raw "" "1") ⟨"id", .TYPE_PRIMARY_KEY⟩ rfl rfl (by decide),
    h.2.2 1 (raw "name" "") (raw "" "Bob") ⟨"name", .TYPE_TEXT⟩ rfl rfl (by decide),
    h.2.2 2 (raw "age" "") (raw "" "30") ⟨"age", .TYPE_INTEGER⟩ rfl rfl (by decide)⟩

/-- C4: an Insert in which, at some index, the name resolves to a column whose type does not
accept the text of the value at that index is rejected; this holds on every table and for
every count of names and values. -/
theorem insert_type_mismatch (env : env_t) (query : insert_query_t) (i : Nat)
    (n v : field_record_t) (d : field_definition_t)
    (hn : query.fields_names.fields[i]? = some n)
    (hv : query.fields_values.fields[i]? = some v)
    (hd : find_field_definition n.column_name (env.get_table_definition query.table_name) =
      some d)
    (hrej : type_accepts env d.column_type (text_value env v.field_value) = false) :
    (check_query_insert env query).1 = false := by
  obtain ⟨t, ⟨names⟩, ⟨values⟩⟩ := query
  simp only at hn hv hd
  cases hres : (check_query_insert env ⟨t, ⟨names⟩, ⟨values⟩⟩).1 with
  | false => rfl
  | true =>
    exfalso
    unfold check_query_insert at hres
    simp only at hres
    split at hres
    · split at hres
      · split at hres
        · rw [check_value_types_fst] at hres
          have hj := join_fields_values_getElem? env names values i n v hn hv
          obtain ⟨d', hd', hvalid⟩ := hres _ (List.mem_iff_getElem?.mpr ⟨i, hj⟩)
          simp only at hd'
          rw [hd] at hd'
          cases hd'
          rw [is_value_valid_text_fst env _ _ _ d (find_field_definition_name _ _ _ hd).2.symm,
            hrej] at hvalid
          cases hvalid
        · cases hres
      · cases hres
    · cases hres

/-- Witness of C4: schema `{id: PrimaryKey, name: Text, age: Integer}`, names `id, name, age`
and values `1`, `Bob`, `thirty`: the text `thirty` is not accepted by the Integer column
`age`. -/
theorem insert_type_mismatch_witness :
    type_accepts people_env .TYPE_INTEGER "thirty" = false ∧
      (check_query_insert people_env
        ⟨"people", ⟨[raw "id" "", raw "name" "", raw "age" ""]⟩,
          ⟨[raw "" "1", raw "" "Bob", raw "" "thirty"]⟩⟩).1 = false :=
  ⟨by decide,
    insert_type_mismatch people_env
      ⟨"people", ⟨[raw "id" "", raw "name" "", raw "age" ""]⟩,
        ⟨[raw "" "1", raw "" "Bob", raw "" "thirty"]⟩⟩
      2 (raw "age" "") (raw "" "thirty") ⟨"age", .TYPE_INTEGER⟩ rfl rfl (by decide) (by decide)⟩

/-- C7, counterexample: with an empty WHERE condition list the connective is not looked at; a
Select, an Update and a Delete that carry `OP_ERROR` validate. -/
theorem where_sentinel_unused_when_empty :
    (check_query_select people_env
        ⟨"people", ⟨[raw "*" ""]⟩, ⟨⟨[]⟩, .OP_ERROR⟩⟩).1 = true ∧
      (check_query_update people_env
        ⟨"people", ⟨[raw "name" "Bob"]⟩, ⟨⟨[]⟩, .OP_ERROR⟩⟩).1 = true ∧
      (check_query_delete people_env ⟨"people", ⟨⟨[]⟩, .OP_ERROR⟩⟩).1 = true := by
  decide

/-- C7, amended: a Select, Update or Delete whose WHERE condition list is not empty and whose
WHERE clause carries `OP_ERROR` is rejected, for every catalog, schema, field list and
condition list. -/
theorem where_sentinel_rejected (env : env_t) (t : String) (set_clause : table_record_t)
    (where_clause : filter_t)
    (hop : where_clause.logic_operator = operator_t.OP_ERROR)
    (hne : where_clause.values.fields ≠ []) :
    (check_query_select env ⟨t, set_clause, where_clause⟩).1 = false ∧
      (check_query_update env ⟨t, set_clause, where_clause⟩).1 = false ∧
      (check_query_delete env ⟨t, where_clause⟩).1 = false := by
  have hlen : ¬ where_clause.values.fields.length = 0 := by
    simpa [List.length_eq_zero] using hne
  refine ⟨?_, ?_, ?_⟩
  · unfold check_query_select
    simp only [table_record_t.fields_count, hlen, hop, ne_eq, not_true_eq_false, if_false]
    split
    · split <;> rfl
    · rfl
  · unfold check_query_update
    simp only [table_record_t.fields_count, hlen, hop, ne_eq, not_true_eq_false, if_false]
    split
    · split
      · split <;> rfl
      · rfl
    · rfl
  · unfold check_query_delete
    simp only [table_record_t.fields_count, hlen, hop, ne_eq, not_true_eq_false, if_false]
    split <;> rfl

/-- Witness of C7, amended: conditions that are well typed one by one, under `OP_ERROR`. -/
theorem where_sentinel_rejected_witness :
    (check_value_types people_env ⟨[raw "age" "30"]⟩ people).1 = true ∧
      (check_query_select people_env
        ⟨"people", ⟨[raw "name" "Bob"]⟩, ⟨⟨[raw "age" "30"]⟩, .OP_ERROR⟩⟩).1 = false ∧
      (check_query_update people_env
        ⟨"people", ⟨[raw "name" "Bob"]⟩, ⟨⟨[raw "age" "30"]⟩, .OP_ERROR⟩⟩).1 = false ∧
      (check_query_delete people_env ⟨"people", ⟨⟨[raw "age" "30"]⟩, .OP_ERROR⟩⟩).1 = false :=
  ⟨by decide,
    where_sentinel_rejected people_env "people" ⟨[raw "name" "Bob"]⟩
      ⟨⟨[raw "age" "30"]⟩, .OP_ERROR⟩ rfl (by decide)⟩

/-! ## Lemmas on the integer parsers -/


theorem decimal_value_nil : decimal_value [] = 0 := by
  simp [decimal_value]

theorem decimal_value_cons (c : Char) (cs : List Char) :
    decimal_value (c :: cs) = (c.toNat - '0'.toNat) * 10 ^ cs.length + decimal_value cs := by
  simp only [decimal_value, List.reverse_cons, List.map_append, List.map_cons, List.map_nil,
    Nat.ofDigits_append, Nat.ofDigits_singleton, List.length_map, List.length_reverse]
  ring

theorem scan_digits_all (ds : List Char) (h : ∀ c ∈ ds, c.isDigit = true) (acc : Nat) :
    scan_digits acc ds = (acc * 10 ^ ds.length + decimal_value ds, []) := by
  induction ds generalizing acc with
  | nil => simp [scan_digits, decimal_value_nil]
  | cons c cs ih =>
    have hc : c.isDigit = true := h c (List.mem_cons_self _ _)
    have hcs : ∀ x ∈ cs, x.isDigit = true := fun x hx => h x (List.mem_cons_of_mem _ hx)
    rw [scan_digits, if_pos hc, ih hcs, decimal_value_cons]
    congr 1
    simp only [List.length_cons, pow_succ]
    ring

theorem scan_digits_nil_rest (l : List Char) (acc v : Nat) (h : scan_digits acc l = (v, [])) :
    ∀ c ∈ l, c.isDigit = true := by
  induction l generalizing acc with
  | nil => intro c hc; cases hc
  | cons c cs ih =>
    unfold scan_digits at h
    by_cases hc : c.isDigit = true
    · rw [if_pos hc] at h
      intro x hx
      rcases List.mem_cons.mp hx with rfl | hx
      · exact hc
      · exact ih _ h x hx
    · rw [if_neg hc] at h
      cases h

theorem dropWhile_isspace_append (ws rest : List Char) (hws : ∀ c ∈ ws, isspace c = true)
    (hrest : ∀ c ∈ rest.head?, isspace c = false) :
    (ws ++ rest).dropWhile isspace = rest := by
  induction ws with
  | nil =>
    cases rest with
    | nil => rfl
    | cons c cs =>
      have : isspace c = false := hrest c (by simp)
      simp [List.dropWhile, this]
  | cons w ws ih =>
    have hw : isspace w = true := hws w (List.mem_cons_self _ _)
    simp only [List.cons_append, List.dropWhile, hw]
    exact ih fun c hc => hws c (List.mem_cons_of_mem _ hc)

theorem isDigit_not_space (c : Char) (h : c.isDigit = true) :
    isspace c = false ∧ c ≠ '-' ∧ c ≠ '+' := by
  refine ⟨?_, ?_, ?_⟩
  · cases hs : isspace c with
    | false => rfl
    | true =>
      exfalso
      simp only [isspace, Bool.or_eq_true, beq_iff_eq] at hs
      rcases hs with ((((rfl | rfl) | rfl) | rfl) | rfl) | rfl <;> revert h <;> decide
  · rintro rfl; revert h; decide
  · rintro rfl; revert h; decide

theorem subject_sequence_of_form (s : List Char) (neg : Bool) (digits : List Char)
    (h : literal_form s neg digits) :
    subject_sequence s = some (neg, decimal_value digits, []) := by
  obtain ⟨ws, sign, rfl, hws, hsign, hne, hdig⟩ := h
  obtain ⟨c0, cs, rfl⟩ := List.exists_cons_of_ne_nil hne
  have hc0 : c0.isDigit = true := hdig c0 (List.mem_cons_self _ _)
  obtain ⟨hsp, hm, hp⟩ := isDigit_not_space c0 hc0
  have hscan := scan_digits_all (c0 :: cs) hdig 0
  simp only [Nat.zero_mul, Nat.zero_add] at hscan
  unfold subject_sequence
  rcases hsign with ⟨rfl, rfl⟩ | ⟨rfl, rfl⟩ | ⟨rfl, rfl⟩
  · rw [List.append_assoc, dropWhile_isspace_append ws _ hws (by simpa using hsp)]
    simp only [List.nil_append]
    have hsig : (match c0 :: cs with
        | '-' :: t => (true, t)
        | '+' :: t => (false, t)
        | _ => (false, c0 :: cs)) = (false, c0 :: cs) := by
      split
      · rename_i heq; cases heq; exact absurd rfl hm
      · rename_i heq; cases heq; exact absurd rfl hp
      · rfl
    rw [hsig]
    simp only [hc0, if_true, hscan]
  · rw [List.append_assoc, dropWhile_isspace_append ws _ hws (by simp; decide)]
    simp only [List.singleton_append, hc0, if_true, hscan]
  · rw [List.append_assoc, dropWhile_isspace_append ws _ hws (by simp; decide)]
    simp only [List.singleton_append, hc0, if_true, hscan]

theorem form_of_subject_sequence (s : List Char) (neg : Bool) (v : Nat)
    (h : subject_sequence s = some (neg, v, [])) :
    ∃ digits, literal_form s neg digits ∧ v = decimal_value digits := by
  have hsplit : s = s.takeWhile isspace ++ s.dropWhile isspace :=
    (List.takeWhile_append_dropWhile _ _).symm
  have hws : ∀ c ∈ s.takeWhile isspace, isspace c = true := fun c hc =>
    List.mem_takeWhile_imp hc
  unfold subject_sequence at h
  generalize s.dropWhile isspace = s1 at h hsplit
  simp only at h
  split at h
  · cases h
  · rename_i c tail hsigned
    split at h
    · rename_i hc
      simp only [Option.some.injEq, Prod.mk.injEq] at h
      obtain ⟨hneg, hv, hrest⟩ := h
      have hsc : scan_digits 0 (match s1 with
          | '-' :: t => (true, t)
          | '+' :: t => (false, t)
          | _ => (false, s1)).2 = (v, []) := Prod.ext hv hrest
      have hall := scan_digits_nil_rest _ 0 v hsc
      have hval := scan_digits_all _ hall 0
      rw [hsc] at hval
      simp only [Prod.mk.injEq, Nat.zero_mul, Nat.zero_add, and_true] at hval
      rw [hsigned] at hall hval
      refine ⟨c :: tail, ⟨s.takeWhile isspace, ?_⟩, hval⟩
      revert hsigned hneg
      split
      · rename_i t
        intro hsigned hneg
        simp only at hsigned hneg
        subst hsigned
        exact ⟨['-'], by simpa using hsplit, hws, Or.inr (Or.inr ⟨rfl, hneg.symm⟩),
          List.cons_ne_nil _ _, hall⟩
      · rename_i t
        intro hsigned hneg
        simp only at hsigned hneg
        subst hsigned
        exact ⟨['+'], by simpa using hsplit, hws, Or.inr (Or.inl ⟨rfl, hneg.symm⟩),
          List.cons_ne_nil _ _, hall⟩
      · intro hsigned hneg
        simp only at hsigned hneg
        subst hsigned
        exact ⟨[], by simpa using hsplit, hws, Or.inl ⟨rfl, hneg.symm⟩,
          List.cons_ne_nil _ _, hall⟩
    · cases h

theorem not_literal_form_nil (neg : Bool) (digits : List Char) : ¬ literal_form [] neg digits := by
  rintro ⟨ws, sign, h, _, _, hne, _⟩
  have h1 := congrArg List.length h
  simp only [List.length_nil, List.length_append] at h1
  have h2 : 0 < digits.length := List.length_pos.mpr hne
  omega

theorem is_int_iff_form (s : String) :
    is_int s = true ↔ s = "" ∨ ∃ neg digits, literal_form s.data neg digits := by
  unfold is_int strtoll
  cases h : subject_sequence s.data with
  | none =>
    simp only [String.isEmpty_iff]
    constructor
    · intro hs; exact Or.inl hs
    · rintro (hs | ⟨neg, digits, hf⟩)
      · exact hs
      · rw [subject_sequence_of_form _ _ _ hf] at h
        cases h
  | some p =>
    obtain ⟨neg, v, rest⟩ := p
    simp only [String.isEmpty_iff]
    constructor
    · intro hs
      have hrest : rest = [] := by
        have := congrArg String.data hs
        simpa using this
      subst hrest
      obtain ⟨digits, hf, _⟩ := form_of_subject_sequence _ _ _ h
      exact Or.inr ⟨neg, digits, hf⟩
    · rintro (hs | ⟨neg', digits, hf⟩)
      · subst hs
        have h0 : subject_sequence "".data = none := by decide
        rw [h0] at h
        cases h
      · rw [subject_sequence_of_form _ _ _ hf] at h
        cases h
        rfl

theorem strtoll_of_denotes (s : String) (z : Int) (h : denotes s.data z) :
    strtoll s = (nearest_int64 z, "") := by
  obtain ⟨neg, digits, hf, rfl⟩ := h
  unfold strtoll
  rw [subject_sequence_of_form _ _ _ hf]
  rfl

theorem strtoull_of_form (s : String) (neg : Bool) (digits : List Char)
    (h : literal_form s.data neg digits) :
    strtoull s =
      (if 2 ^ 64 - 1 < decimal_value digits then 2 ^ 64 - 1
        else if neg then (2 ^ 64 - decimal_value digits) % 2 ^ 64 else decimal_value digits,
        "") := by
  unfold strtoull
  rw [subject_sequence_of_form _ _ _ h]
  rfl

/-! ## Claims on values and literals -/

/-- C13, counterexample: the empty text is no base-10 literal and an Integer column accepts it
with the value 0; the text `9223372036854775808` denotes 2^63, outside the signed 64-bit
range, and an Integer column accepts it with the value 2^63 - 1. -/
theorem integer_column_accepts_more :
    (¬ ∃ z, denotes "".data z) ∧
      is_value_valid people_env (raw "age" "") ⟨"age", .TYPE_INTEGER⟩ =
        (true, ⟨"age", .TYPE_INTEGER, .int_value 0⟩) ∧
      denotes "9223372036854775808".data (2 ^ 63) ∧
      is_value_valid people_env (raw "age" "9223372036854775808") ⟨"age", .TYPE_INTEGER⟩ =
        (true, ⟨"age", .TYPE_INTEGER, .int_value (2 ^ 63 - 1)⟩) := by
  refine ⟨?_, by decide, ?_, by decide⟩
  · rintro ⟨z, neg, digits, hf, _⟩
    exact not_literal_form_nil neg digits hf
  · refine ⟨false, "9223372036854775808".data, ⟨[], [], rfl, ?_, Or.inl ⟨rfl, rfl⟩, ?_, ?_⟩, ?_⟩
    · intro c hc; cases hc
    · decide
    · decide
    · decide

/-- C13, amended: for a record whose raw text is not empty and an Integer column of the same
name, `is_value_valid` returns true exactly when the text is a base-10 literal with nothing
after it (white space, an optional sign, one or more digits), whatever its magnitude; the
record is then tagged Integer and its value is the integer the text denotes when that lies
in the signed 64-bit range, and the nearest bound of the range otherwise. -/
theorem integer_column_coercion (env : env_t) (r : field_record_t) (d : field_definition_t)
    (hname : r.column_name = d.column_name) (hty : d.column_type = .TYPE_INTEGER)
    (hne : text_value env r.field_value ≠ "") :
    ((is_value_valid env r d).1 = true ↔ ∃ z, denotes (text_value env r.field_value).data z) ∧
      (∀ z, denotes (text_value env r.field_value).data z →
        (is_value_valid env r d).2 =
          { r with field_type := .TYPE_INTEGER, field_value := .int_value (nearest_int64 z) }) ∧
      ∀ z, denotes (text_value env r.field_value).data z → -(2 ^ 63) ≤ z → z ≤ 2 ^ 63 - 1 →
        (is_value_valid env r d).2 =
          { r with field_type := .TYPE_INTEGER, field_value := .int_value z } := by
  have hrun : is_value_valid env r d =
      if is_int (text_value env r.field_value) then
        (true, { r with
          field_type := .TYPE_INTEGER
          field_value := .int_value (strtoll (text_value env r.field_value)).1 })
      else (false, r) := by
    unfold is_value_valid
    rw [if_pos hname, hty]
  have hden : ∀ z, denotes (text_value env r.field_value).data z →
      (is_value_valid env r d).2 =
        { r with field_type := .TYPE_INTEGER, field_value := .int_value (nearest_int64 z) } := by
    intro z hz
    have hint : is_int (text_value env r.field_value) = true := by
      rw [is_int_iff_form]
      obtain ⟨neg, digits, hf, _⟩ := hz
      exact Or.inr ⟨neg, digits, hf⟩
    rw [hrun, if_pos hint, strtoll_of_denotes _ z hz]
  refine ⟨?_, hden, ?_⟩
  · rw [hrun]
    constructor
    · intro h
      have hint : is_int (text_value env r.field_value) = true := by
        by_contra hc
        rw [if_neg hc] at h
        cases h
      rcases (is_int_iff_form _).mp hint with he | ⟨neg, digits, hf⟩
      · exact absurd he hne
      · exact ⟨_, neg, digits, hf, rfl⟩
    · rintro ⟨z, neg, digits, hf, _⟩
      have hint : is_int (text_value env r.field_value) = true :=
        (is_int_iff_form _).mpr (Or.inr ⟨neg, digits, hf⟩)
      rw [if_pos hint]
  · intro z hz hlo hhi
    rw [hden z hz]
    have : nearest_int64 z = z := by
      unfold nearest_int64
      rw [if_neg (by omega), if_neg (by omega)]
    rw [this]

/-- Witness of C13, amended: the text `-42` in the Integer column `age`. -/
theorem integer_column_coercion_witness :
    denotes "-42".data (-42) ∧
      (is_value_valid people_env (raw "age" "-42") ⟨"age", .TYPE_INTEGER⟩).2 =
        ⟨"age", .TYPE_INTEGER, .int_value (-42)⟩ :=
  have hz : denotes "-42".data (-42) :=
    ⟨true, "42".data, ⟨[], ['-'], rfl, by decide, Or.inr (Or.inr ⟨rfl, rfl⟩), by decide, by decide⟩,
      by decide⟩
  ⟨hz, (integer_column_coercion people_env (raw "age" "-42") ⟨"age", .TYPE_INTEGER⟩ rfl rfl
    (by decide)).2.2 (-42) hz (by decide) (by decide)⟩

/-- C14: a non-empty text of decimal digits whose value is at most 2^64 - 1 passes `is_key`,
and a record with that raw text is accepted by a PrimaryKey column of the same name, tagged
PrimaryKey and given that value as its key. -/
theorem key_digits_accepted (env : env_t) (s : String) (hne : s.data ≠ [])
    (hdig : ∀ c ∈ s.data, c.isDigit = true) (hv : decimal_value s.data ≤ 2 ^ 64 - 1) :
    is_key s = true ∧
      ∀ (r : field_record_t) (d : field_definition_t), r.column_name = d.column_name →
        d.column_type = .TYPE_PRIMARY_KEY → text_value env r.field_value = s →
        is_value_valid env r d =
          (true, { r with
            field_type := .TYPE_PRIMARY_KEY
            field_value := .primary_key_value (decimal_value s.data) }) := by
  have hf : literal_form s.data false s.data :=
    ⟨[], [], rfl, (by intro c hc; cases hc), Or.inl ⟨rfl, rfl⟩, hne, hdig⟩
  have hrun := strtoull_of_form s false s.data hf
  rw [if_neg (by omega)] at hrun
  simp only [Bool.false_eq_true, if_false] at hrun
  have hkey : is_key s = true := by
    unfold is_key
    rw [hrun]
    rfl
  refine ⟨hkey, ?_⟩
  intro r d hname hty htext
  unfold is_value_valid
  rw [if_pos hname, hty]
  simp only [htext, hkey, if_true, hrun]

/-- Witness of C14: the text `18446744073709551615` gives the key 2^64 - 1. -/
theorem key_digits_accepted_witness :
    is_key "18446744073709551615" = true ∧
      is_value_valid people_env (raw "id" "18446744073709551615") ⟨"id", .TYPE_PRIMARY_KEY⟩ =
        (true, ⟨"id", .TYPE_PRIMARY_KEY, .primary_key_value (2 ^ 64 - 1)⟩) :=
  have h := key_digits_accepted people_env "18446744073709551615" (by decide) (by decide)
    (by decide)
  ⟨h.1, h.2 (raw "id" "18446744073709551615") ⟨"id", .TYPE_PRIMARY_KEY⟩ rfl rfl rfl⟩

/-- C20: for a non-empty text of decimal digits of value `v` with 1 ≤ v ≤ 2^64 - 1, the text
made of a minus sign and these digits passes `is_key`, and a record with that raw text is
accepted by a PrimaryKey column of the same name with the key `(2^64 - v) mod 2^64`. -/
theorem key_minus_sign_accepted (env : env_t) (digits : String) (hne : digits.data ≠ [])
    (hdig : ∀ c ∈ digits.data, c.isDigit = true) (h1 : 1 ≤ decimal_value digits.data)
    (hv : decimal_value digits.data ≤ 2 ^ 64 - 1) :
    is_key ("-" ++ digits) = true ∧
      ∀ (r : field_record_t) (d : field_definition_t), r.column_name = d.column_name →
        d.column_type = .TYPE_PRIMARY_KEY → text_value env r.field_value = "-" ++ digits →
        is_value_valid env r d =
          (true, { r with
            field_type := .TYPE_PRIMARY_KEY
            field_value :=
              .primary_key_value ((2 ^ 64 - decimal_value digits.data) % 2 ^ 64) }) := by
  have hf : literal_form ("-" ++ digits).data true digits.data :=
    ⟨[], ['-'], by simp [String.data_append], (by intro c hc; cases hc),
      Or.inr (Or.inr ⟨rfl, rfl⟩), hne, hdig⟩
  have hrun := strtoull_of_form ("-" ++ digits) true digits.data hf
  rw [if_neg (by omega)] at hrun
  simp only [if_true] at hrun
  have hkey : is_key ("-" ++ digits) = true := by
    unfold is_key
    rw [hrun]
    rfl
  refine ⟨hkey, ?_⟩
  intro r d hname hty htext
  unfold is_value_valid
  rw [if_pos hname, hty]
  simp only [htext, hkey, if_true, hrun]

/-- Witness of C20: the text `-1` is accepted as a primary key and gives
18446744073709551615. -/
theorem key_minus_sign_accepted_witness :
    is_key "-1" = true ∧
      is_value_valid people_env (raw "id" "-1") ⟨"id", .TYPE_PRIMARY_KEY⟩ =
        (true, ⟨"id", .TYPE_PRIMARY_KEY, .primary_key_value 18446744073709551615⟩) :=
  have h := key_minus_sign_accepted people_env "1" (by decide) (by decide) (by decide)
    (by decide)
  ⟨h.1, h.2 (raw "id" "-1") ⟨"id", .TYPE_PRIMARY_KEY⟩ rfl rfl rfl⟩

/-- C18: `is_int` returns true exactly when `strtoll` leaves nothing of the text, that is when
the text is empty or is made of white space, an optional sign and one or more decimal digits
with nothing after them, whatever the magnitude; `123` passes, `12.3` and `12 ` with a space
after it do not, and the empty text passes and is converted to 0 by an Integer column. -/
theorem is_int_whole_text :
    (∀ s : String, (is_int s = true ↔ (strtoll s).2 = "") ∧
        (is_int s = true ↔ s = "" ∨ ∃ neg digits, literal_form s.data neg digits)) ∧
      is_int "123" = true ∧ is_int "12.3" = false ∧ is_int "12 " = false ∧
      is_int "" = true ∧
      ∀ (env : env_t) (name : String) (tag : field_type_t),
        is_value_valid env ⟨name, tag, .text_value ""⟩ ⟨name, .TYPE_INTEGER⟩ =
          (true, ⟨name, .TYPE_INTEGER, .int_value 0⟩) := by
  refine ⟨fun s => ⟨?_, is_int_iff_form s⟩, by decide, by decide, by decide, by decide, ?_⟩
  · unfold is_int
    exact String.isEmpty_iff _
  · intro env name tag
    have h0 : is_int "" = true := by decide
    have h1 : (strtoll "").1 = 0 := by decide
    simp [is_value_valid, text_value, h0, h1]

theorem is_value_valid_accepts (env : env_t) (r : field_record_t) (d : field_definition_t)
    (hname : r.column_name = d.column_name)
    (hacc : type_accepts env d.column_type (text_value env r.field_value) = true) :
    is_value_valid env r d =
      (true, ⟨r.column_name, d.column_type,
        if d.column_type = .TYPE_TEXT then r.field_value
        else coerced_value env d.column_type (text_value env r.field_value)⟩) := by
  obtain ⟨dn, dt⟩ := d
  simp only at hname hacc
  subst hname
  cases dt <;> simp_all [is_value_valid, type_accepts, coerced_value]

/-- C15: a Text column accepts a record of the same name whatever its raw text is; the value
and its text stay as they were, the column name too, and the tag becomes Text. -/
theorem text_column_accepts (env : env_t) (r : field_record_t) (d : field_definition_t)
    (hname : r.column_name = d.column_name) (hty : d.column_type = .TYPE_TEXT) :
    (is_value_valid env r d).1 = true ∧
      (is_value_valid env r d).2 = { r with field_type := .TYPE_TEXT } ∧
      text_value env (is_value_valid env r d).2.field_value = text_value env r.field_value := by
  have hrun : is_value_valid env r d = (true, { r with field_type := .TYPE_TEXT }) := by
    unfold is_value_valid
    rw [if_pos hname, hty]
  rw [hrun]
  exact ⟨rfl, rfl, rfl⟩

/-- Witness of C15: the empty text and a text that looks like a number, in the Text column
`name`. -/
theorem text_column_accepts_witness :
    is_value_valid people_env (raw "name" "") ⟨"name", .TYPE_TEXT⟩ =
        (true, ⟨"name", .TYPE_TEXT, .text_value ""⟩) ∧
      (is_value_valid people_env (raw "name" "42") ⟨"name", .TYPE_TEXT⟩).2 =
        ⟨"name", .TYPE_TEXT, .text_value "42"⟩ :=
  ⟨Prod.ext (text_column_accepts people_env (raw "name" "") ⟨"name", .TYPE_TEXT⟩ rfl rfl).1
      (text_column_accepts people_env (raw "name" "") ⟨"name", .TYPE_TEXT⟩ rfl rfl).2.1,
    (text_column_accepts people_env (raw "name" "42") ⟨"name", .TYPE_TEXT⟩ rfl rfl).2.1⟩

/-- C16, counterexample: against a column of type Unknown with the same name,
`is_value_valid` returns false and has set the tag of the record to Unknown. -/
theorem failed_coercion_changes_tag :
    is_value_valid people_env ⟨"note", .TYPE_TEXT, .text_value "a"⟩ ⟨"note", .TYPE_UNKNOWN⟩ =
        (false, ⟨"note", .TYPE_UNKNOWN, .text_value "a"⟩) ∧
      (is_value_valid people_env ⟨"note", .TYPE_TEXT, .text_value "a"⟩
        ⟨"note", .TYPE_UNKNOWN⟩).2 ≠ ⟨"note", .TYPE_TEXT, .text_value "a"⟩ := by
  decide

/-- C16, amended: when `is_value_valid` returns false, the column name and the value of the
record are as before; the record as a whole is as before unless the names are equal and the
type of the column is Unknown, and in that case its tag has been set to Unknown. -/
theorem failed_coercion_frame (env : env_t) (r : field_record_t) (d : field_definition_t)
    (h : (is_value_valid env r d).1 = false) :
    (is_value_valid env r d).2.column_name = r.column_name ∧
      (is_value_valid env r d).2.field_value = r.field_value ∧
      (¬ (r.column_name = d.column_name ∧ d.column_type = .TYPE_UNKNOWN) →
        (is_value_valid env r d).2 = r) ∧
      (r.column_name = d.column_name ∧ d.column_type = .TYPE_UNKNOWN →
        (is_value_valid env r d).2 = { r with field_type := .TYPE_UNKNOWN }) := by
  obtain ⟨dn, dt⟩ := d
  unfold is_value_valid at h ⊢
  by_cases hname : r.column_name = dn
  · simp only [hname, if_true] at h ⊢
    cases dt <;> simp only at h ⊢ <;> (try split at h) <;> simp_all
  · simp [hname]

/-- Witness of C16, amended: the text `thirty` against the Integer column `age`. -/
theorem failed_coercion_frame_witness :
    (is_value_valid people_env (raw "age" "thirty") ⟨"age", .TYPE_INTEGER⟩).1 = false ∧
      (is_value_valid people_env (raw "age" "thirty") ⟨"age", .TYPE_INTEGER⟩).2 =
        raw "age" "thirty" :=
  ⟨by decide,
    (failed_coercion_frame people_env (raw "age" "thirty") ⟨"age", .TYPE_INTEGER⟩
      (by decide)).2.2.1 (by decide)⟩

/-- C19: `check_value_types` visits every entry. Whatever its result, an entry that resolves
to a column whose type accepts its text stands converted in the list afterwards, at the same
index: tagged with the type of the column and carrying the typed value (its own value for a
Text column); the list keeps its length. -/
theorem check_value_types_converts_all (env : env_t) (L : table_record_t)
    (S : table_definition_t) (i : Nat) (r : field_record_t) (d : field_definition_t)
    (hi : L.fields[i]? = some r) (hd : find_field_definition r.column_name S = some d)
    (hacc : type_accepts env d.column_type (text_value env r.field_value) = true) :
    (check_value_types env L S).2.fields.length = L.fields.length ∧
      (check_value_types env L S).2.fields[i]? =
        some ⟨r.column_name, d.column_type,
          if d.column_type = .TYPE_TEXT then r.field_value
          else coerced_value env d.column_type (text_value env r.field_value)⟩ := by
  unfold check_value_types
  simp only [check_value_loop_snd, List.length_map, List.getElem?_map, hi, Option.map_some', hd,
    true_and]
  rw [is_value_valid_accepts env r d (find_field_definition_name _ _ _ hd).2.symm hacc]

/-- Witness of C19: the first entry fails, the result is false, and the second entry has been
converted all the same while the first is still raw. -/
theorem check_value_types_converts_all_witness :
    check_value_types people_env ⟨[raw "age" "thirty", raw "id" "7"]⟩ people =
        (false, ⟨[raw "age" "thirty", ⟨"id", .TYPE_PRIMARY_KEY, .primary_key_value 7⟩]⟩) ∧
      (check_value_types people_env ⟨[raw "age" "thirty", raw "id" "7"]⟩ people).2.fields[1]? =
        some ⟨"id", .TYPE_PRIMARY_KEY, .primary_key_value 7⟩ :=
  ⟨by decide,
    (check_value_types_converts_all people_env ⟨[raw "age" "thirty", raw "id" "7"]⟩ people 1
      (raw "id" "7") ⟨"id", .TYPE_PRIMARY_KEY⟩ rfl (by decide) (by decide)).2⟩

/-! ## Claims on Update, Delete and DropDatabase -/

theorem check_fields_list_of_values (env : env_t) (L : table_record_t) (S : table_definition_t)
    (hv : (check_value_types env L S).1 = true) :
    check_fields_list L S = true ↔ L.fields ≠ [] := by
  rw [check_fields_list_iff]
  rw [check_value_types_fst] at hv
  constructor
  · rintro ⟨f, hf, _⟩ hnil
    rw [hnil] at hf
    cases hf
  · intro hne
    obtain ⟨f, fs, hL⟩ := List.exists_cons_of_ne_nil hne
    have hf : f ∈ L.fields := by rw [hL]; exact List.mem_cons_self _ _
    obtain ⟨d, hd, _⟩ := hv f hf
    exact ⟨f, hf, by rw [hd]; rfl⟩

theorem check_query_update_fst (env : env_t) (query : update_or_select_query_t)
    (hex : env.table_exists query.table_name = true) :
    (check_query_update env query).1 =
      (check_fields_list query.set_clause (env.get_table_definition query.table_name) &&
        (check_value_types env query.set_clause (env.get_table_definition query.table_name)).1 &&
        where_clause_valid env query.where_clause
          (env.get_table_definition query.table_name)) := by
  unfold check_query_update where_clause_valid
  simp only [hex, if_true, table_record_t.fields_count]
  cases check_fields_list query.set_clause (env.get_table_definition query.table_name)
  · simp
  · simp only [if_true, Bool.true_and]
    cases (check_value_types env query.set_clause
      (env.get_table_definition query.table_name)).1
    · simp
    · simp only [if_true, Bool.true_and]
      by_cases hw : query.where_clause.values.fields = []
      · simp [hw]
      · have hlen : ¬ query.where_clause.values.fields.length = 0 := by
          simpa [List.length_eq_zero] using hw
        simp only [hlen, if_false, hw, decide_False, Bool.false_or]
        by_cases hop : query.where_clause.logic_operator = operator_t.OP_ERROR
        · simp [hop]
        · simp only [ne_eq, hop, not_false_eq_true, if_true, decide_True, Bool.true_and]
          cases check_fields_list query.where_clause.values
            (env.get_table_definition query.table_name) <;> simp

/-- C11: on an existing table, `check_query_update` returns true exactly when the SET list is
not empty, every SET entry resolves to a column and is accepted by `is_value_valid` against
it, and the WHERE condition list is empty or else its connective is not `OP_ERROR` and every
WHERE entry resolves and is accepted. -/
theorem update_valid_iff (env : env_t) (query : update_or_select_query_t)
    (hex : env.table_exists query.table_name = true) :
    (check_query_update env query).1 = true ↔
      query.set_clause.fields ≠ [] ∧
        (∀ f ∈ query.set_clause.fields, ∃ d,
          find_field_definition f.column_name (env.get_table_definition query.table_name) =
            some d ∧ (is_value_valid env f d).1 = true) ∧
        (query.where_clause.values.fields = [] ∨
          (query.where_clause.logic_operator ≠ operator_t.OP_ERROR ∧
            ∀ f ∈ query.where_clause.values.fields, ∃ d,
              find_field_definition f.column_name
                  (env.get_table_definition query.table_name) = some d ∧
                (is_value_valid env f d).1 = true)) := by
  rw [check_query_update_fst env query hex]
  simp only [Bool.and_eq_true, where_clause_valid, Bool.or_eq_true, decide_eq_true_eq]
  constructor
  · rintro ⟨⟨hfl, hvt⟩, hwhere⟩
    refine ⟨(check_fields_list_of_values env _ _ hvt).mp hfl,
      (check_value_types_fst env _ _).mp hvt, ?_⟩
    rcases hwhere with hw | ⟨⟨hop, _⟩, hwv⟩
    · exact Or.inl hw
    · exact Or.inr ⟨hop, (check_value_types_fst env _ _).mp hwv⟩
  · rintro ⟨hne, hall, hwhere⟩
    have hvt := (check_value_types_fst env _ _).mpr hall
    refine ⟨⟨(check_fields_list_of_values env _ _ hvt).mpr hne, hvt⟩, ?_⟩
    rcases hwhere with hw | ⟨hop, hwall⟩
    · exact Or.inl hw
    · by_cases hw : query.where_clause.values.fields = []
      · exact Or.inl hw
      · have hwv := (check_value_types_fst env _ _).mpr hwall
        exact Or.inr ⟨⟨hop, (check_fields_list_of_values env _ _ hwv).mpr hw⟩, hwv⟩

/-- Witness of C11: a SET list made of the single entry `*` is looked up like any other name;
the table has no column `*` and the Update is rejected. -/
theorem update_valid_iff_witness :
    find_field_definition "*" people = none ∧
      (check_query_update people_env
        ⟨"people", ⟨[raw "*" "Bob"]⟩, ⟨⟨[]⟩, .OP_AND⟩⟩).1 = false := by
  refine ⟨by decide, ?_⟩
  cases h : (check_query_update people_env
      ⟨"people", ⟨[raw "*" "Bob"]⟩, ⟨⟨[]⟩, .OP_AND⟩⟩).1 with
  | false => rfl
  | true =>
    exfalso
    obtain ⟨d, hd, _⟩ :=
      ((update_valid_iff people_env ⟨"people", ⟨[raw "*" "Bob"]⟩, ⟨⟨[]⟩, .OP_AND⟩⟩
        (by decide)).mp h).2.1 (raw "*" "Bob") (List.mem_cons_self _ _)
    have hnone : find_field_definition (raw "*" "Bob").column_name
        (people_env.get_table_definition "people") = none := by decide
    rw [hnone] at hd
    cases hd

/-- C12: for every catalog, table name and WHERE clause, `check_query_delete` gives the same
result and leaves the same WHERE clause as `check_query_select` does for the field list made
of the single entry `*`; this result is that of the WHERE handling on an existing table. -/
theorem delete_as_select_wildcard (env : env_t) (t : String) (where_clause : filter_t)
    (f : field_record_t) (hstar : f.column_name = "*") :
    (check_query_delete env ⟨t, where_clause⟩).1 =
        (check_query_select env ⟨t, ⟨[f]⟩, where_clause⟩).1 ∧
      (check_query_delete env ⟨t, where_clause⟩).2.where_clause =
        (check_query_select env ⟨t, ⟨[f]⟩, where_clause⟩).2.where_clause ∧
      (check_query_delete env ⟨t, where_clause⟩).1 =
        (env.table_exists t && where_clause_valid env where_clause
          (env.get_table_definition t)) := by
  unfold check_query_delete check_query_select where_clause_valid
  simp only [table_record_t.fields_count, List.length_singleton, List.head?_cons,
    Option.map_some', hstar, true_and, true_or, if_true]
  cases env.table_exists t
  · simp
  · simp only [if_true, Bool.true_and]
    by_cases hw : where_clause.values.fields = []
    · simp [hw]
    · have hlen : ¬ where_clause.values.fields.length = 0 := by
        simpa [List.length_eq_zero] using hw
      simp only [hlen, if_false, hw, decide_False, Bool.false_or]
      by_cases hop : where_clause.logic_operator = operator_t.OP_ERROR
      · simp [hop]
      · simp only [ne_eq, hop, not_false_eq_true, if_true, decide_True, Bool.true_and]
        cases check_fields_list where_clause.values (env.get_table_definition t) <;> simp

/-- Witness of C12: a WHERE clause with one condition that is converted and one that fails. -/
theorem delete_as_select_wildcard_witness :
    check_query_delete people_env
        ⟨"people", ⟨⟨[raw "id" "7", raw "age" "thirty"]⟩, .OP_AND⟩⟩ =
        (false, ⟨"people",
          ⟨⟨[⟨"id", .TYPE_PRIMARY_KEY, .primary_key_value 7⟩, raw "age" "thirty"]⟩, .OP_AND⟩⟩) ∧
      (check_query_delete people_env
        ⟨"people", ⟨⟨[raw "id" "7", raw "age" "thirty"]⟩, .OP_AND⟩⟩).2.where_clause =
        (check_query_select people_env
          ⟨"people", ⟨[raw "*" ""]⟩,
            ⟨⟨[raw "id" "7", raw "age" "thirty"]⟩, .OP_AND⟩⟩).2.where_clause :=
  ⟨by decide,
    (delete_as_select_wildcard people_env "people"
      ⟨⟨[raw "id" "7", raw "age" "thirty"]⟩, .OP_AND⟩ (raw "*" "") rfl).2.1⟩

theorem last_four (l : List Char) (h : 4 ≤ l.length) :
    ∃ (front : List Char) (a b c d : Char),
      l = front ++ [a, b, c, d] ∧ l.drop (l.length - 4) = [a, b, c, d] := by
  have hlen : (l.drop (l.length - 4)).length = 4 := by
    rw [List.length_drop]; omega
  have hsplit : l = l.take (l.length - 4) ++ l.drop (l.length - 4) :=
    (List.take_append_drop _ _).symm
  generalize l.drop (l.length - 4) = tail at hlen hsplit
  match tail, hlen with
  | [a, b, c, d], _ => exact ⟨_, a, b, c, d, hsplit, rfl⟩

theorem check_query_drop_db_of_length (env : env_t) (db_name : String)
    (h4 : 4 ≤ env.getcwd.length) (h300 : env.getcwd.length < 300) :
    check_query_drop_db env db_name =
      some ("/db".data.isSuffixOf env.getcwd.data || env.directory_exists db_name) := by
  obtain ⟨front, a, b, c, d, hl, hdrop⟩ := last_four env.getcwd.data h4
  unfold check_query_drop_db
  simp only [if_neg (Nat.not_le.mpr h300), if_neg (Nat.not_lt.mpr h4)]
  have hlen : env.getcwd.length = env.getcwd.data.length := rfl
  rw [hlen, hdrop, hl]
  have hsuf : List.isSuffixOf "/db".data (front ++ [a, b, c, d]) =
      (b == '/' && c == 'd' && d == 'b') := by
    simp only [List.isSuffixOf, List.reverse_append, List.reverse_cons, List.reverse_nil,
      List.nil_append, List.cons_append, List.singleton_append]
    show List.isPrefixOf ['b', 'd', '/'] (d :: c :: b :: a :: front.reverse) = _
    simp only [List.isPrefixOf, Bool.and_true]
    rw [Bool.eq_iff_iff]
    simp only [Bool.and_eq_true, beq_iff_eq]
    constructor
    · rintro ⟨h1, h2, h3⟩
      exact ⟨⟨h3.symm, h2.symm⟩, h1.symm⟩
    · rintro ⟨⟨h1, h2⟩, h3⟩
      exact ⟨h3.symm, h2.symm, h1.symm⟩
  rw [hsuf]
  simp only [strstr, List.isPrefixOf, Bool.and_true, Bool.and_false, Bool.and_eq_true,
    beq_iff_eq, Bool.false_eq_true, and_false, if_false]
  by_cases h3 : '/' = b ∧ 'd' = c ∧ 'b' = d
  · obtain ⟨rfl, rfl, rfl⟩ := h3
    have h0 : ¬ ('/' = a ∧ 'd' = '/' ∧ 'b' = 'd') := by
      rintro ⟨_, h, _⟩
      revert h
      decide
    rw [if_neg h0, if_pos ⟨rfl, rfl, rfl⟩]
    simp
  · have hno : (b == '/' && c == 'd' && d == 'b') = false := by
      rw [Bool.eq_false_iff]
      intro h
      simp only [Bool.and_eq_true, beq_iff_eq] at h
      exact h3 ⟨h.1.1.symm, h.1.2.symm, h.2.symm⟩
    rw [if_neg h3, hno, Bool.false_or]
    by_cases h0 : '/' = a ∧ 'd' = b ∧ 'b' = c
    · rw [if_pos h0]
      simp only [ne_eq, List.cons.injEq, List.cons_ne_nil, and_false, not_false_eq_true,
        if_true]
      cases env.directory_exists db_name <;> rfl
    · rw [if_neg h0]
      cases env.directory_exists db_name <;> rfl

/-- C17, the code at the failing input: in the working directory `/db` the function computes
`chemin + 3 - 4`, a place before `buffer`, and has no defined result; in `/srv/db` it
returns true, and in `/srv/mydb` and `/srv/dbx` it returns `directory_exists`. -/
theorem drop_db_in_root_db :
    (∀ db_name, check_query_drop_db { people_env with getcwd := "/db" } db_name = none) ∧
      (∀ db_name,
        check_query_drop_db { people_env with getcwd := "/srv/db" } db_name = some true) ∧
      (∀ db_name, check_query_drop_db { people_env with getcwd := "/srv/mydb" } db_name =
        some (people_env.directory_exists db_name)) ∧
      ∀ db_name, check_query_drop_db { people_env with getcwd := "/srv/dbx" } db_name =
        some (people_env.directory_exists db_name) := by
  refine ⟨fun _ => rfl, fun _ => rfl, fun _ => rfl, fun _ => rfl⟩

end Check
